import Mathlib

/-!
Verification of the maven_dependency_tracer repository.

This file gives a shallow embedding, in Lean, of the data model and the
operations of `maven_dependency_tracer.py` (and the exit logic of the two
entry points), and proves theorems about the embedded definitions.

Modelling conventions:
* Python dicts keyed by the `group:artifact` string are modelled either as
  functions `String → Option DepInfo` (for lookup-style access) or as
  association lists `List (String × DepInfo)` (for iteration-style access).
* The regular-expression stage of the line parser is abstracted: a
  `ParsedLine` carries the captured groups and marker flags that the
  regexes produce, while the indentation computation, the
  packaging/version correction, the scope default, the excluded flag and
  all state updates are embedded from the source.
* The filesystem is modelled by `SourceRepo` (read side) and a partial map
  `String → Option String` from repository-relative paths to file contents
  (write side); `shutil.copy2` is an overwriting write.
-/

/-- One record of the `self.dependencies` dict, as built by
`_parse_verbose_dependency_tree`, `_extract_dependency_info` and the plugin
branch of `_parse_effective_pom`.  The Python record for a missing
`version` stores `None`; `version = none` models that, `some s` models a
string value.  `depType` models the `type` key that only
`_extract_dependency_info` adds. -/
structure DepInfo where
  groupId : String
  artifactId : String
  version : Option String
  packaging : String
  scope : String
  optional : Bool
  excluded : Bool
  conflictVersion : Option String
  chain : List String
  level : Nat
  depType : Option String
deriving DecidableEq, Repr

/-! ### Indentation depth (`_parse_verbose_dependency_tree`, lines 131-158) -/

/-- The structural characters of the tree text, from the source's
`char in [' ', '|', '+', '\\', '-']` test. -/
def structuralChar (c : Char) : Bool :=
  c = ' ' || c = '|' || c = '+' || c = '\\' || c = '-'

/-- The `indent_level` loop of `_parse_verbose_dependency_tree`: walk the
line from the left, counting characters as long as they are structural,
and stop at the first character that is not. -/
def indentLevel : List Char → Nat
  | [] => 0
  | c :: rest => if structuralChar c then indentLevel rest + 1 else 0

/-- The computation `chain_level = indent_level // 3` applied to a raw line. -/
def chainLevelOfLine (l : List Char) : Nat :=
  indentLevel l / 3

/-- Modelled from the spec: the count of leading characters drawn from the
structural set, counted until the first alphanumeric character (characters
that are neither structural nor alphanumeric are passed over without being
counted).  This follows the spec's words for comparison with `indentLevel`,
which is translated from the source. -/
def specIndentCount : List Char → Nat
  | [] => 0
  | c :: rest =>
    if c.isAlphanum then 0
    else if structuralChar c then specIndentCount rest + 1
    else specIndentCount rest

lemma indentLevel_eq_takeWhile (l : List Char) :
    indentLevel l = (l.takeWhile structuralChar).length := by
  induction l with
  | nil => rfl
  | cons c rest ih =>
    by_cases h : structuralChar c
    · simp [indentLevel, List.takeWhile_cons, h, ih]
    · simp [indentLevel, List.takeWhile_cons, h]

/-- C3 (counterexample): on the line `"[+++a1:b:c:1.0"` the parser's depth
is `0` (the loop stops at `'['`, which is not structural), while the count
of structural characters before the first alphanumeric character is `3`,
giving depth `1`. -/
theorem depth_spec_counterexample :
    chainLevelOfLine ("[+++a1:b:c:1.0".data) ≠
      specIndentCount ("[+++a1:b:c:1.0".data) / 3 := by
  decide

/-- C3 (amended): for every input line, the parser's computed tree depth
equals the length of the maximal leading run of characters drawn from the
structural set (counting stops at the first character outside the set,
whether or not it is alphanumeric), integer-divided by the per-level
width 3. -/
theorem depth_eq_structural_prefix_div_three (l : List Char) :
    chainLevelOfLine l = (l.takeWhile structuralChar).length / 3 := by
  unfold chainLevelOfLine
  rw [indentLevel_eq_takeWhile]

/-! ### The classifier (`analyze_missing_dependencies`, lines 520-562) -/

/-- The five classification buckets. -/
inductive Bucket where
  | essential
  | optional
  | provided
  | plugin
  | conflict
deriving DecidableEq, Repr

/-- The five bucket lists built by `analyze_missing_dependencies`
(`essential_missing`, `optional_missing`, `provided_missing`,
`plugin_missing`, `conflict_missing`). -/
structure MissingAnalysis where
  essential : List String
  optional : List String
  provided : List String
  plugin : List String
  conflict : List String
deriving DecidableEq, Repr

def emptyAnalysis : MissingAnalysis :=
  { essential := [], optional := [], provided := [], plugin := [], conflict := [] }

/-- The bucket a record is assigned to, written as the first-match if/elif
chain of `analyze_missing_dependencies`. -/
def bucketOf (info : DepInfo) : Bucket :=
  if info.excluded then .conflict
  else if info.scope = "provided" then .provided
  else if info.optional then .optional
  else if info.packaging = "maven-plugin" then .plugin
  else .essential

/-- Append a key to the named bucket of an analysis. -/
def updateBucket (a : MissingAnalysis) (b : Bucket) (k : String) : MissingAnalysis :=
  match b with
  | .essential => { a with essential := k :: a.essential }
  | .optional => { a with optional := k :: a.optional }
  | .provided => { a with provided := k :: a.provided }
  | .plugin => { a with plugin := k :: a.plugin }
  | .conflict => { a with conflict := k :: a.conflict }

/-- The list a given bucket name selects from an analysis. -/
def MissingAnalysis.bucketList (a : MissingAnalysis) : Bucket → List String
  | .essential => a.essential
  | .optional => a.optional
  | .provided => a.provided
  | .plugin => a.plugin
  | .conflict => a.conflict

/-- The classification loop of `analyze_missing_dependencies`: for each
missing key look its record up in `self.dependencies` (a `KeyError` on an
absent key aborts the whole call, modelled by `none`) and append the key
to the bucket selected by the if/elif chain.  A key processed earlier in
the list ends up earlier in its bucket, as with Python's `append`. -/
def analyzeMissingAux (deps : String → Option DepInfo) : List String → Option MissingAnalysis
  | [] => some emptyAnalysis
  | k :: rest =>
    match deps k with
    | none => none
    | some info =>
      match analyzeMissingAux deps rest with
      | none => none
      | some a =>
        some (if info.excluded then { a with conflict := k :: a.conflict }
          else if info.scope = "provided" then { a with provided := k :: a.provided }
          else if info.optional then { a with optional := k :: a.optional }
          else if info.packaging = "maven-plugin" then { a with plugin := k :: a.plugin }
          else { a with essential := k :: a.essential })

/-- The full `analyze_missing_dependencies`: the early `return` on an empty
`self.missing_dependencies` yields Python `None`, modelled by `none`;
otherwise the classification loop runs. -/
def analyzeMissingDependencies (deps : String → Option DepInfo) (missing : List String) :
    Option MissingAnalysis :=
  match missing with
  | [] => none
  | _ => analyzeMissingAux deps missing

lemma ifChain_eq_updateBucket (a : MissingAnalysis) (info : DepInfo) (k : String) :
    (if info.excluded then { a with conflict := k :: a.conflict }
      else if info.scope = "provided" then { a with provided := k :: a.provided }
      else if info.optional then { a with optional := k :: a.optional }
      else if info.packaging = "maven-plugin" then { a with plugin := k :: a.plugin }
      else { a with essential := k :: a.essential }) = updateBucket a (bucketOf info) k := by
  unfold bucketOf updateBucket
  split_ifs <;> rfl

lemma analyzeMissingAux_cons (deps : String → Option DepInfo) (k : String) (rest : List String) :
    analyzeMissingAux deps (k :: rest) =
      match deps k with
      | none => none
      | some info =>
        match analyzeMissingAux deps rest with
        | none => none
        | some a => some (updateBucket a (bucketOf info) k) := by
  show (match deps k with
    | none => none
    | some info =>
      match analyzeMissingAux deps rest with
      | none => none
      | some a =>
        some (if info.excluded then { a with conflict := k :: a.conflict }
          else if info.scope = "provided" then { a with provided := k :: a.provided }
          else if info.optional then { a with optional := k :: a.optional }
          else if info.packaging = "maven-plugin" then { a with plugin := k :: a.plugin }
          else { a with essential := k :: a.essential })) = _
  cases deps k with
  | none => rfl
  | some info =>
    cases analyzeMissingAux deps rest with
    | none => rfl
    | some a => simp only [ifChain_eq_updateBucket]

lemma bucketList_updateBucket (a : MissingAnalysis) (b b' : Bucket) (k : String) :
    (updateBucket a b k).bucketList b' =
      if b' = b then k :: a.bucketList b' else a.bucketList b' := by
  cases b <;> cases b' <;> simp [updateBucket, MissingAnalysis.bucketList]

/-- Characterisation of bucket membership: a key is in bucket `b` of the
result exactly when it is one of the processed missing keys and the
if/elif chain sends its record to `b`. -/
lemma mem_bucketList_analyzeMissingAux (deps : String → Option DepInfo) :
    ∀ (missing : List String) (a : MissingAnalysis),
      analyzeMissingAux deps missing = some a →
      ∀ (b : Bucket) (k : String),
        k ∈ a.bucketList b ↔ ∃ info, deps k = some info ∧ k ∈ missing ∧ bucketOf info = b := by
  intro missing
  induction missing with
  | nil =>
    intro a ha b k
    have : emptyAnalysis = a := by
      simpa [analyzeMissingAux] using ha
    subst this
    constructor
    · intro h
      cases b <;> simp [emptyAnalysis, MissingAnalysis.bucketList] at h
    · rintro ⟨info, -, h, -⟩
      simp at h
  | cons k' rest ih =>
    intro a ha b k
    rw [analyzeMissingAux_cons] at ha
    cases hd : deps k' with
    | none => rw [hd] at ha; exact absurd ha (by simp)
    | some info' =>
      rw [hd] at ha
      cases hr : analyzeMissingAux deps rest with
      | none => rw [hr] at ha; exact absurd ha (by simp)
      | some a' =>
        rw [hr] at ha
        have haeq : updateBucket a' (bucketOf info') k' = a := by
          simpa using ha
        subst haeq
        rw [bucketList_updateBucket]
        by_cases hb : b = bucketOf info'
        · rw [if_pos hb]
          constructor
          · intro hmem
            rcases List.mem_cons.mp hmem with rfl | hmem'
            · exact ⟨info', hd, List.mem_cons_self _ _, hb.symm⟩
            · rcases (ih a' hr b k).mp hmem' with ⟨info, h1, h2, h3⟩
              exact ⟨info, h1, List.mem_cons_of_mem _ h2, h3⟩
          · rintro ⟨info, h1, h2, h3⟩
            rcases List.mem_cons.mp h2 with rfl | h2'
            · exact List.mem_cons_self _ _
            · exact List.mem_cons_of_mem _ ((ih a' hr b k).mpr ⟨info, h1, h2', h3⟩)
        · rw [if_neg hb]
          constructor
          · intro hmem
            rcases (ih a' hr b k).mp hmem with ⟨info, h1, h2, h3⟩
            exact ⟨info, h1, List.mem_cons_of_mem _ h2, h3⟩
          · rintro ⟨info, h1, h2, h3⟩
            rcases List.mem_cons.mp h2 with rfl | h2'
            · rw [hd] at h1
              cases h1
              exact absurd h3.symm hb
            · exact (ih a' hr b k).mpr ⟨info, h1, h2', h3⟩

lemma analyzeMissingAux_isSome (deps : String → Option DepInfo) :
    ∀ (missing : List String), (∀ k ∈ missing, (deps k).isSome = true) →
      ∃ a, analyzeMissingAux deps missing = some a := by
  intro missing
  induction missing with
  | nil => intro _; exact ⟨emptyAnalysis, rfl⟩
  | cons k rest ih =>
    intro h
    rcases ih (fun k' hk' => h k' (List.mem_cons_of_mem _ hk')) with ⟨a, ha⟩
    have hk := h k (List.mem_cons_self _ _)
    cases hd : deps k with
    | none => rw [hd] at hk; simp at hk
    | some info =>
      refine ⟨updateBucket a (bucketOf info) k, ?_⟩
      rw [analyzeMissingAux_cons, hd, ha]

lemma analyzeMissingDependencies_eq_aux (deps : String → Option DepInfo)
    (missing : List String) (a : MissingAnalysis)
    (h : analyzeMissingDependencies deps missing = some a) :
    analyzeMissingAux deps missing = some a := by
  cases missing with
  | nil => exact absurd h (by simp [analyzeMissingDependencies])
  | cons k rest => exact h

lemma mem_bucketList_analyzeMissingDependencies (deps : String → Option DepInfo)
    (missing : List String) (a : MissingAnalysis)
    (h : analyzeMissingDependencies deps missing = some a) (b : Bucket) (k : String) :
    k ∈ a.bucketList b ↔ ∃ info, deps k = some info ∧ k ∈ missing ∧ bucketOf info = b :=
  mem_bucketList_analyzeMissingAux deps missing a
    (analyzeMissingDependencies_eq_aux deps missing a h) b k

/-- C1: for every nonempty set of missing keys, each present in the
dependency table, the classifier produces five buckets such that (i) a key
is missing exactly when it lies in some bucket, (ii) distinct buckets are
disjoint, and (iii) each missing key lies exactly in the bucket chosen by
the first-match precedence chain conflict-if-excluded, else provided, else
optional, else plugin, else essential (the chain defining `bucketOf`). -/
theorem analyzeMissing_partition (deps : String → Option DepInfo) (missing : List String)
    (hne : missing ≠ [])
    (hpres : ∀ k ∈ missing, (deps k).isSome = true) :
    ∃ a, analyzeMissingDependencies deps missing = some a ∧
      (∀ k, k ∈ missing ↔ ∃ b, k ∈ a.bucketList b) ∧
      (∀ b b' k, b ≠ b' → k ∈ a.bucketList b → k ∉ a.bucketList b') ∧
      (∀ k info, deps k = some info → k ∈ missing →
        ∀ b, (k ∈ a.bucketList b ↔ bucketOf info = b)) := by
  rcases analyzeMissingAux_isSome deps missing hpres with ⟨a, ha⟩
  have hfull : analyzeMissingDependencies deps missing = some a := by
    cases missing with
    | nil => exact absurd rfl hne
    | cons k rest => exact ha
  have hmem := mem_bucketList_analyzeMissingAux deps missing a ha
  refine ⟨a, hfull, ?_, ?_, ?_⟩
  · intro k
    constructor
    · intro hk
      have hks := hpres k hk
      cases hd : deps k with
      | none => rw [hd] at hks; simp at hks
      | some info =>
        exact ⟨bucketOf info, (hmem (bucketOf info) k).mpr ⟨info, hd, hk, rfl⟩⟩
    · rintro ⟨b, hb⟩
      rcases (hmem b k).mp hb with ⟨info, -, h2, -⟩
      exact h2
  · intro b b' k hbb' hkb hkb'
    rcases (hmem b k).mp hkb with ⟨info, h1, -, h3⟩
    rcases (hmem b' k).mp hkb' with ⟨info', h1', -, h3'⟩
    rw [h1] at h1'
    cases h1'
    exact hbb' (h3 ▸ h3' ▸ rfl)
  · intro k info hd hk b
    constructor
    · intro hb
      rcases (hmem b k).mp hb with ⟨info', h1', -, h3'⟩
      rw [hd] at h1'
      cases h1'
      exact h3'
    · intro hb
      exact (hmem b k).mpr ⟨info, hd, hk, hb⟩

/-- A concrete record for witness instances: a plain compile-scope library. -/
def wInfoPlain : DepInfo :=
  { groupId := "com.foo", artifactId := "bar", version := some "1.2.3",
    packaging := "jar", scope := "compile", optional := false, excluded := false,
    conflictVersion := none, chain := ["com.foo:bar"], level := 0, depType := none }

/-- A concrete dependency table for witness instances. -/
def wDeps : String → Option DepInfo :=
  fun k => if k = "com.foo:bar" then some wInfoPlain else none

/-- Witness for C1 at the table `wDeps` and missing list `["com.foo:bar"]`. -/
theorem analyzeMissing_partition_witness :
    ∃ a, analyzeMissingDependencies wDeps ["com.foo:bar"] = some a ∧
      (∀ k, k ∈ ["com.foo:bar"] ↔ ∃ b, k ∈ a.bucketList b) ∧
      (∀ b b' k, b ≠ b' → k ∈ a.bucketList b → k ∉ a.bucketList b') ∧
      (∀ k info, wDeps k = some info → k ∈ ["com.foo:bar"] →
        ∀ b, (k ∈ a.bucketList b ↔ bucketOf info = b)) :=
  analyzeMissing_partition wDeps ["com.foo:bar"] (by decide) (by decide)

/-! ### Mirror candidate selection (`copy_all_dependencies_with_tracking`,
lines 488-518, and the resume branch of `main`, lines 992-1011) -/

/-- The `active_deps` dict comprehension of
`copy_all_dependencies_with_tracking`: the items of `self.dependencies`
whose record is not excluded. -/
def activeDeps (items : List (String × DepInfo)) : List (String × DepInfo) :=
  items.filter fun kv => !kv.2.excluded

/-- The `missing_keys` list of the `--copy-missing-only` branch of `main`:
the report's `essential` bucket extended with its `plugin` bucket. -/
def resumeKeys (a : MissingAnalysis) : List String :=
  a.essential ++ a.plugin

/-- C2: an artifact whose record has `excluded = true` is never selected as
a copy candidate: it is filtered out of the active set of the full pass,
and it is in neither the `essential` nor the `plugin` bucket of the
classification, hence not among the keys the resume-from-report pass
copies. -/
theorem excluded_never_candidate
    (items : List (String × DepInfo)) (deps : String → Option DepInfo)
    (missing : List String) (a : MissingAnalysis) (k : String) (info : DepInfo)
    (hexc : info.excluded = true)
    (hk : deps k = some info)
    (ha : analyzeMissingDependencies deps missing = some a) :
    (k, info) ∉ activeDeps items ∧ k ∉ resumeKeys a := by
  constructor
  · intro hmem
    have := (List.mem_filter.mp hmem).2
    rw [hexc] at this
    simp at this
  · intro hmem
    have hmem' : k ∈ a.bucketList .essential ∨ k ∈ a.bucketList .plugin := by
      simpa [resumeKeys, MissingAnalysis.bucketList] using List.mem_append.mp hmem
    have hconv : ∀ b : Bucket, k ∈ a.bucketList b → bucketOf info = b := by
      intro b hb
      rcases (mem_bucketList_analyzeMissingDependencies deps missing a ha b k).mp hb
        with ⟨info', h1', -, h3'⟩
      rw [hk] at h1'
      cases h1'
      exact h3'
    have hbo : bucketOf info = .conflict := by
      unfold bucketOf
      rw [hexc]
      rfl
    rcases hmem' with hb | hb
    · rw [hconv .essential hb] at hbo
      exact absurd hbo (by decide)
    · rw [hconv .plugin hb] at hbo
      exact absurd hbo (by decide)

/-- A concrete excluded record (a conflict loser) for witness instances. -/
def wInfoExcluded : DepInfo :=
  { groupId := "org.x", artifactId := "y", version := some "1.0",
    packaging := "jar", scope := "compile", optional := false, excluded := true,
    conflictVersion := some "2.0.0", chain := ["org.x:y"], level := 1, depType := none }

/-- A table holding one excluded artifact, for witness instances. -/
def wDepsExcluded : String → Option DepInfo :=
  fun k => if k = "org.x:y" then some wInfoExcluded else none

/-- Witness for C2 at a one-entry table whose single artifact is excluded. -/
theorem excluded_never_candidate_witness :
    ("org.x:y", wInfoExcluded) ∉ activeDeps [("org.x:y", wInfoExcluded)] ∧
      "org.x:y" ∉ resumeKeys (updateBucket emptyAnalysis .conflict "org.x:y") :=
  excluded_never_candidate [("org.x:y", wInfoExcluded)] wDepsExcluded ["org.x:y"]
    (updateBucket emptyAnalysis .conflict "org.x:y") "org.x:y" wInfoExcluded
    rfl (by decide) (by decide)

/-! ### The selective mirror (`copy_dependency_with_tracking`, lines 415-486) -/

/-- The error categories of the structured failure records appended to
`self.failed_copies`.  `versionMissing` abstracts the fixed
missing-version message, `sourceMissing` carries the source path of the
missing-directory message, and `copyFailure` stands for an exception
raised while copying (never produced here: the model's filesystem writes
do not fail). -/
inductive CopyError where
  | versionMissing
  | sourceMissing (path : String)
  | copyFailure (msg : String)
deriving DecidableEq, Repr

/-- One entry of `self.failed_copies`: the key, the error, the chains
recorded for the key at failure time, and the record itself. -/
structure FailedEntry where
  key : String
  err : CopyError
  chains : List (List String)
  info : DepInfo
deriving DecidableEq, Repr

/-- The mutable tracking collections of the tracer that the copy
operations touch. -/
structure TState where
  copiedFiles : List String
  failedCopies : List FailedEntry
  missingDependencies : List String
deriving DecidableEq, Repr

/-- The tracer state with all tracking collections empty. -/
def initialTState : TState :=
  { copiedFiles := [], failedCopies := [], missingDependencies := [] }

/-- The read side of the filesystem: existence of a version directory
under the source root, the regular-file names inside such a directory, the
`maven-metadata*` regular-file names inside a directory, and file
contents.  All paths are relative to the source root. -/
structure SourceRepo where
  dirExists : String → Bool
  filesIn : String → List String
  metadataIn : String → List String
  readFile : String → String

/-- The group path: dots of the group id replaced by the separator. -/
def groupPath (g : String) : String :=
  String.mk (g.data.map fun c => if c = '.' then '/' else c)

/-- The relative version-directory path: group path, artifact id, version. -/
def artifactPath (info : DepInfo) (v : String) : String :=
  groupPath info.groupId ++ "/" ++ info.artifactId ++ "/" ++ v

/-- The parent of the version directory, holding repository metadata. -/
def artifactParentPath (info : DepInfo) : String :=
  groupPath info.groupId ++ "/" ++ info.artifactId

/-- Write a sequence of `(path, contents)` pairs into the target map, in
order, each write overwriting as `shutil.copy2` does. -/
def writeAll (tgt : String → Option String) (ps : List (String × String)) :
    String → Option String :=
  ps.foldl (fun t pc => fun p => if p = pc.1 then some pc.2 else t p) tgt

/-- The writes the success branch performs: every regular file of the
version directory, then every `maven-metadata*` file of its parent
directory, each copied to the same relative path under the target root. -/
def copyWrites (src : SourceRepo) (info : DepInfo) (v : String) : List (String × String) :=
  ((src.filesIn (artifactPath info v)).map fun name =>
      (artifactPath info v ++ "/" ++ name,
        src.readFile (artifactPath info v ++ "/" ++ name)))
    ++ ((src.metadataIn (artifactParentPath info)).map fun name =>
      (artifactParentPath info ++ "/" ++ name,
        src.readFile (artifactParentPath info ++ "/" ++ name)))

/-- The function `copy_dependency_with_tracking`: look the key up (an unknown key just
returns `False`); fail unconditionally when the version is `None`, empty
or the sentinel `LATEST`; fail with a missing-dependency record when the
computed source directory does not exist; otherwise create the target
directory and copy all files.  Returns the success flag, the updated
tracking state, and the updated target map. -/
def copyDependencyWithTracking (deps : String → Option DepInfo)
    (depChains : String → List (List String)) (src : SourceRepo)
    (st : TState) (tgt : String → Option String) (depKey : String) :
    Bool × TState × (String → Option String) :=
  match deps depKey with
  | none => (false, st, tgt)
  | some info =>
    match info.version with
    | none =>
      (false,
        { st with failedCopies :=
            st.failedCopies ++ [⟨depKey, .versionMissing, depChains depKey, info⟩] },
        tgt)
    | some v =>
      if v = "" ∨ v = "LATEST" then
        (false,
          { st with failedCopies :=
              st.failedCopies ++ [⟨depKey, .versionMissing, depChains depKey, info⟩] },
          tgt)
      else if src.dirExists (artifactPath info v) then
        (true,
          { st with copiedFiles :=
              st.copiedFiles ++ (copyWrites src info v).map Prod.fst },
          writeAll tgt (copyWrites src info v))
      else
        (false,
          { st with
              failedCopies := st.failedCopies ++
                [⟨depKey, .sourceMissing (artifactPath info v), depChains depKey, info⟩],
              missingDependencies := st.missingDependencies ++ [depKey] },
          tgt)

/-- The missing-version branch of `copy_dependency_with_tracking`, as a
reusable equation. -/
lemma copy_version_missing_result (deps : String → Option DepInfo)
    (depChains : String → List (List String)) (st : TState)
    (tgt : String → Option String) (k : String) (info : DepInfo)
    (hk : deps k = some info)
    (hv : info.version = none ∨ info.version = some "" ∨ info.version = some "LATEST")
    (src : SourceRepo) :
    copyDependencyWithTracking deps depChains src st tgt k =
      (false,
        { st with failedCopies :=
            st.failedCopies ++ [⟨k, .versionMissing, depChains k, info⟩] },
        tgt) := by
  rcases hv with hv | hv | hv <;> simp [copyDependencyWithTracking, hk, hv]

/-- C6: when the record's version is absent, empty, or the sentinel
`LATEST`, the copy operation records a failure and returns without
consulting the source repository: for every source repository whatsoever
the result is the same failure, the missing set and the target map are
untouched, and only `failed_copies` grows. -/
theorem version_missing_unconditional (deps : String → Option DepInfo)
    (depChains : String → List (List String)) (st : TState)
    (tgt : String → Option String) (k : String) (info : DepInfo)
    (hk : deps k = some info)
    (hv : info.version = none ∨ info.version = some "" ∨ info.version = some "LATEST") :
    ∀ src : SourceRepo,
      copyDependencyWithTracking deps depChains src st tgt k =
        (false,
          { st with failedCopies :=
              st.failedCopies ++ [⟨k, .versionMissing, depChains k, info⟩] },
          tgt) :=
  fun src => copy_version_missing_result deps depChains st tgt k info hk hv src

/-- A record carrying the `LATEST` sentinel, for witness instances. -/
def wInfoLatest : DepInfo :=
  { groupId := "com.foo", artifactId := "latest", version := some "LATEST",
    packaging := "maven-plugin", scope := "plugin", optional := false, excluded := false,
    conflictVersion := none, chain := ["com.foo:latest"], level := 0, depType := none }

/-- A table holding the `LATEST`-version artifact, for witness instances. -/
def wDepsLatest : String → Option DepInfo :=
  fun k => if k = "com.foo:latest" then some wInfoLatest else none

/-- A chain map that records nothing, for witness instances. -/
def wNoChains : String → List (List String) :=
  fun _ => []

/-- A source repository in which no directory exists, for witness instances. -/
def wSrcEmpty : SourceRepo :=
  { dirExists := fun _ => false, filesIn := fun _ => [],
    metadataIn := fun _ => [], readFile := fun _ => "" }

/-- An empty target map, for witness instances. -/
def wTgtEmpty : String → Option String :=
  fun _ => none

/-- Witness for C6 at the `LATEST`-version artifact and the empty source. -/
theorem version_missing_unconditional_witness :
    copyDependencyWithTracking wDepsLatest wNoChains wSrcEmpty initialTState wTgtEmpty
        "com.foo:latest" =
      (false,
        { initialTState with failedCopies :=
            initialTState.failedCopies ++
              [⟨"com.foo:latest", .versionMissing, wNoChains "com.foo:latest", wInfoLatest⟩] },
        wTgtEmpty) :=
  version_missing_unconditional wDepsLatest wNoChains initialTState wTgtEmpty
    "com.foo:latest" wInfoLatest rfl (Or.inr (Or.inr rfl)) wSrcEmpty

/-- C7: for a concrete resolved version whose computed source path does
not exist under the source root, the copy operation records a
missing-dependency failure carrying the chains recorded for the key,
appends the key to the missing set, and leaves the target map untouched. -/
theorem source_missing_failure (deps : String → Option DepInfo)
    (depChains : String → List (List String)) (src : SourceRepo) (st : TState)
    (tgt : String → Option String) (k : String) (info : DepInfo) (v : String)
    (hk : deps k = some info) (hver : info.version = some v)
    (hne : v ≠ "") (hlat : v ≠ "LATEST")
    (hmiss : src.dirExists (artifactPath info v) = false) :
    copyDependencyWithTracking deps depChains src st tgt k =
      (false,
        { st with
            failedCopies := st.failedCopies ++
              [⟨k, .sourceMissing (artifactPath info v), depChains k, info⟩],
            missingDependencies := st.missingDependencies ++ [k] },
        tgt) := by
  simp [copyDependencyWithTracking, hk, hver, hne, hlat, hmiss]

/-- A record with a concrete version, for the source-missing witness. -/
def wInfoMissing : DepInfo :=
  { groupId := "org.miss", artifactId := "gone", version := some "3.1.4",
    packaging := "jar", scope := "compile", optional := false, excluded := false,
    conflictVersion := none, chain := ["org.miss:gone"], level := 0, depType := none }

/-- A table holding the artifact whose source directory is absent. -/
def wDepsMissing : String → Option DepInfo :=
  fun k => if k = "org.miss:gone" then some wInfoMissing else none

/-- A chain map with one recorded chain for the missing artifact. -/
def wChainsMissing : String → List (List String) :=
  fun k => if k = "org.miss:gone" then [["org.root:app", "org.miss:gone"]] else []

/-- Witness for C7 at a source repository with no directories. -/
theorem source_missing_failure_witness :
    copyDependencyWithTracking wDepsMissing wChainsMissing wSrcEmpty initialTState wTgtEmpty
        "org.miss:gone" =
      (false,
        { initialTState with
            failedCopies := initialTState.failedCopies ++
              [⟨"org.miss:gone", .sourceMissing (artifactPath wInfoMissing "3.1.4"),
                wChainsMissing "org.miss:gone", wInfoMissing⟩],
            missingDependencies := initialTState.missingDependencies ++ ["org.miss:gone"] },
        wTgtEmpty) :=
  source_missing_failure wDepsMissing wChainsMissing wSrcEmpty initialTState wTgtEmpty
    "org.miss:gone" wInfoMissing "3.1.4" rfl rfl (by decide) (by decide) rfl

/-! ### Idempotence of the mirror writes -/

/-- The last write a sequence of `(path, contents)` pairs performs at a
given path, if any. -/
def lastWrite (ps : List (String × String)) (p : String) : Option String :=
  match ps with
  | [] => none
  | pc :: rest =>
    match lastWrite rest p with
    | some c => some c
    | none => if pc.1 = p then some pc.2 else none

lemma writeAll_cons (tgt : String → Option String) (pc : String × String)
    (ps : List (String × String)) :
    writeAll tgt (pc :: ps) = writeAll (fun p => if p = pc.1 then some pc.2 else tgt p) ps :=
  rfl

/-- The value of the target map after a write sequence: the last write at
the path if there is one, otherwise the previous value. -/
lemma writeAll_apply (ps : List (String × String)) :
    ∀ (tgt : String → Option String) (p : String),
      writeAll tgt ps p =
        match lastWrite ps p with
        | some c => some c
        | none => tgt p := by
  induction ps with
  | nil => intro tgt p; rfl
  | cons pc rest ih =>
    intro tgt p
    rw [writeAll_cons, ih]
    show _ = (match (match lastWrite rest p with
      | some c => some c
      | none => if pc.1 = p then some pc.2 else none) with
      | some c => some c
      | none => tgt p)
    cases lastWrite rest p with
    | some c => rfl
    | none =>
      by_cases hp : pc.1 = p
      · rw [if_pos hp, if_pos hp.symm]
      · rw [if_neg hp, if_neg (fun h => hp h.symm)]

/-- Replaying the same write sequence over its own result changes
nothing. -/
lemma writeAll_idem (tgt : String → Option String) (ps : List (String × String)) :
    writeAll (writeAll tgt ps) ps = writeAll tgt ps := by
  funext p
  rw [writeAll_apply, writeAll_apply]
  cases h : lastWrite ps p with
  | some c => rfl
  | none => rfl

/-- C8: for an artifact with a concrete resolved version and an existing,
unchanged source directory, running the copy operation twice in
succession succeeds on the second run and leaves the target map exactly as
it was after the first run: each file is overwritten identically and no
new file appears. -/
theorem mirror_idempotent (deps : String → Option DepInfo)
    (depChains : String → List (List String)) (src : SourceRepo) (st : TState)
    (tgt : String → Option String) (k : String) (info : DepInfo) (v : String)
    (hk : deps k = some info) (hver : info.version = some v)
    (hne : v ≠ "") (hlat : v ≠ "LATEST")
    (hdir : src.dirExists (artifactPath info v) = true) :
    (copyDependencyWithTracking deps depChains src
        (copyDependencyWithTracking deps depChains src st tgt k).2.1
        (copyDependencyWithTracking deps depChains src st tgt k).2.2 k).1 = true ∧
    (copyDependencyWithTracking deps depChains src
        (copyDependencyWithTracking deps depChains src st tgt k).2.1
        (copyDependencyWithTracking deps depChains src st tgt k).2.2 k).2.2
      = (copyDependencyWithTracking deps depChains src st tgt k).2.2 := by
  have hstep : ∀ (st' : TState) (tgt' : String → Option String),
      copyDependencyWithTracking deps depChains src st' tgt' k =
        (true,
          { st' with copiedFiles :=
              st'.copiedFiles ++ (copyWrites src info v).map Prod.fst },
          writeAll tgt' (copyWrites src info v)) := by
    intro st' tgt'
    simp [copyDependencyWithTracking, hk, hver, hne, hlat, hdir]
  rw [hstep st tgt, hstep _ _]
  exact ⟨rfl, writeAll_idem tgt (copyWrites src info v)⟩

/-- A source repository holding the files of one version directory and one
metadata file, for the idempotence witness. -/
def wSrcFull : SourceRepo :=
  { dirExists := fun p => p == "com/foo/bar/1.2.3",
    filesIn := fun _ => ["bar-1.2.3.jar", "bar-1.2.3.pom"],
    metadataIn := fun _ => ["maven-metadata-local.xml"],
    readFile := fun p => "contents:" ++ p }

/-- Witness for C8 at the concrete populated source repository. -/
theorem mirror_idempotent_witness :
    (copyDependencyWithTracking wDeps wNoChains wSrcFull
        (copyDependencyWithTracking wDeps wNoChains wSrcFull initialTState wTgtEmpty
          "com.foo:bar").2.1
        (copyDependencyWithTracking wDeps wNoChains wSrcFull initialTState wTgtEmpty
          "com.foo:bar").2.2 "com.foo:bar").1 = true ∧
    (copyDependencyWithTracking wDeps wNoChains wSrcFull
        (copyDependencyWithTracking wDeps wNoChains wSrcFull initialTState wTgtEmpty
          "com.foo:bar").2.1
        (copyDependencyWithTracking wDeps wNoChains wSrcFull initialTState wTgtEmpty
          "com.foo:bar").2.2 "com.foo:bar").2.2
      = (copyDependencyWithTracking wDeps wNoChains wSrcFull initialTState wTgtEmpty
          "com.foo:bar").2.2 :=
  mirror_idempotent wDeps wNoChains wSrcFull initialTState wTgtEmpty
    "com.foo:bar" wInfoPlain "1.2.3" rfl rfl (by decide) (by decide) (by decide)

/-! ### Report statistics (`_create_report_data`, lines 825-856) -/

/-- The `missing_dependencies` entry of the report's `statistics` block:
`len(self.missing_dependencies)`. -/
def missingDependenciesStat (st : TState) : Nat :=
  st.missingDependencies.length

/-- Any key in any bucket of a classification is one of the missing keys
the classifier was given. -/
lemma bucket_subset_missing (deps : String → Option DepInfo)
    (missing : List String) (a : MissingAnalysis)
    (h : analyzeMissingDependencies deps missing = some a)
    (b : Bucket) (k : String) (hk : k ∈ a.bucketList b) : k ∈ missing := by
  rcases (mem_bucketList_analyzeMissingDependencies deps missing a h b k).mp hk
    with ⟨-, -, h2, -⟩
  exact h2

/-- C9: a copy that fails for an absent/empty/`LATEST` version grows only
the failed-copies list; the missing set, and with it the report's
`missing_dependencies` statistic, are unchanged, and a key that was not
already in the missing set is afterwards in none of the five buckets of
any classification of that missing set. -/
theorem bad_version_only_failed_copies (deps : String → Option DepInfo)
    (depChains : String → List (List String)) (src : SourceRepo) (st : TState)
    (tgt : String → Option String) (k : String) (info : DepInfo)
    (hk : deps k = some info)
    (hv : info.version = none ∨ info.version = some "" ∨ info.version = some "LATEST")
    (hnot : k ∉ st.missingDependencies) :
    (copyDependencyWithTracking deps depChains src st tgt k).2.1.missingDependencies
        = st.missingDependencies ∧
    (copyDependencyWithTracking deps depChains src st tgt k).2.1.failedCopies
        = st.failedCopies ++ [⟨k, .versionMissing, depChains k, info⟩] ∧
    missingDependenciesStat (copyDependencyWithTracking deps depChains src st tgt k).2.1
        = missingDependenciesStat st ∧
    (∀ (deps' : String → Option DepInfo) (a : MissingAnalysis) (b : Bucket),
      analyzeMissingDependencies deps'
          (copyDependencyWithTracking deps depChains src st tgt k).2.1.missingDependencies
        = some a → k ∉ a.bucketList b) := by
  have hres := copy_version_missing_result deps depChains st tgt k info hk hv src
  rw [hres]
  refine ⟨rfl, rfl, rfl, ?_⟩
  intro deps' a b ha hmem
  exact hnot (bucket_subset_missing deps' st.missingDependencies a ha b k hmem)

/-- Witness for C9 at the `LATEST`-version artifact and the empty state. -/
theorem bad_version_only_failed_copies_witness :
    (copyDependencyWithTracking wDepsLatest wNoChains wSrcEmpty initialTState wTgtEmpty
        "com.foo:latest").2.1.missingDependencies = initialTState.missingDependencies ∧
    (copyDependencyWithTracking wDepsLatest wNoChains wSrcEmpty initialTState wTgtEmpty
        "com.foo:latest").2.1.failedCopies
      = initialTState.failedCopies ++
          [⟨"com.foo:latest", .versionMissing, wNoChains "com.foo:latest", wInfoLatest⟩] ∧
    missingDependenciesStat
        (copyDependencyWithTracking wDepsLatest wNoChains wSrcEmpty initialTState wTgtEmpty
          "com.foo:latest").2.1
      = missingDependenciesStat initialTState ∧
    (∀ (deps' : String → Option DepInfo) (a : MissingAnalysis) (b : Bucket),
      analyzeMissingDependencies deps'
          (copyDependencyWithTracking wDepsLatest wNoChains wSrcEmpty initialTState wTgtEmpty
            "com.foo:latest").2.1.missingDependencies
        = some a → "com.foo:latest" ∉ a.bucketList b) :=
  bad_version_only_failed_copies wDepsLatest wNoChains wSrcEmpty initialTState wTgtEmpty
    "com.foo:latest" wInfoLatest rfl (Or.inr (Or.inr rfl)) (by decide)

/-! ### The verbose tree pass (`_parse_verbose_dependency_tree`, lines 115-194) -/

/-- Does `re.match` of the pattern digits, dot, digits succeed at the
start of the string?  Used by the packaging/version correction step. -/
def startsDotDigit : List Char → Bool
  | c :: rest =>
    if c.isDigit then startsDotDigit rest
    else if c = '.' then
      match rest with
      | d :: _ => d.isDigit
      | [] => false
    else false
  | [] => false

/-- The check `re.match(r'^\d+\.\d+', packaging)`: at least one digit, a
dot, and at least one further digit, at the start of the string. -/
def startsVersionLike (l : List Char) : Bool :=
  match l with
  | c :: rest => c.isDigit && startsDotDigit rest
  | [] => false

/-- The data the regular-expression stage extracts from one dependency
line: the five captured groups (`scopeOpt = none` when the fifth group is
absent), the three marker tests on the cleaned line, the captured
conflict-winner version, and the raw characters of the line (from which
the indentation is counted). -/
structure ParsedLine where
  groupId : String
  artifactId : String
  packaging : String
  version : String
  scopeOpt : Option String
  optionalMark : Bool
  omittedConflict : Bool
  omittedDuplicate : Bool
  conflictWith : Option String
  lineChars : List Char
deriving DecidableEq, Repr

/-- The mutable state the verbose parsing loop threads through the lines:
the dependency table, the per-key chain map (`defaultdict(list)`), and the
ancestry stack `current_chain`.  The write-only `provided_dependencies`
and `optional_dependencies` bookkeeping sets are not modelled. -/
structure VerboseState where
  dependencies : String → Option DepInfo
  dependencyChains : String → List (List String)
  currentChain : List String

/-- The verbose-parse state before the first line. -/
def initialVerboseState : VerboseState :=
  { dependencies := fun _ => none, dependencyChains := fun _ => [], currentChain := [] }

/-- The dependency key: group id, a colon, artifact id. -/
def verboseDepKey (pl : ParsedLine) : String :=
  pl.groupId ++ ":" ++ pl.artifactId

/-- The version after the packaging/version correction step. -/
def verboseVersion (pl : ParsedLine) : String :=
  if startsVersionLike pl.packaging.data then pl.packaging else pl.version

/-- The packaging after the packaging/version correction step. -/
def verbosePackaging (pl : ParsedLine) : String :=
  if startsVersionLike pl.packaging.data then "jar" else pl.packaging

/-- The computation `chain_level = indent_level // 3` for the line. -/
def verboseChainLevel (pl : ParsedLine) : Nat :=
  chainLevelOfLine pl.lineChars

/-- The ancestry stack after truncation to the chain level and appending
the key: `current_chain[:chain_level] + [dep_key]`. -/
def verboseChain (st : VerboseState) (pl : ParsedLine) : List String :=
  st.currentChain.take (verboseChainLevel pl) ++ [verboseDepKey pl]

/-- The `dep_info` record the loop stores for the line: the excluded flag
is the omitted-for-conflict/duplicate test, forced true when the
conflict-winner capture succeeded; the scope defaults to `compile`. -/
def verboseInfo (st : VerboseState) (pl : ParsedLine) : DepInfo :=
  { groupId := pl.groupId
    artifactId := pl.artifactId
    version := some (verboseVersion pl)
    packaging := verbosePackaging pl
    scope := pl.scopeOpt.getD "compile"
    optional := pl.optionalMark
    excluded := pl.omittedConflict || pl.omittedDuplicate || pl.conflictWith.isSome
    conflictVersion := pl.conflictWith
    chain := verboseChain st pl
    level := verboseChainLevel pl
    depType := none }

/-- One iteration of the verbose parsing loop on a line whose dependency
regex matched: truncate and extend the ancestry stack, store the record
(unconditionally overwriting any earlier record for the key), and append a
copy of the stack to the chain map — but only when the stack holds more
than one element (`if len(current_chain) > 1`). -/
def verboseStep (st : VerboseState) (pl : ParsedLine) : VerboseState :=
  { dependencies := fun k =>
      if k = verboseDepKey pl then some (verboseInfo st pl) else st.dependencies k
    currentChain := verboseChain st pl
    dependencyChains :=
      if 1 < (verboseChain st pl).length then
        fun k =>
          if k = verboseDepKey pl then
            st.dependencyChains k ++ [verboseChain st pl]
          else st.dependencyChains k
      else st.dependencyChains }

/-- A depth-0 dependency line (spec scenario 1), for the C4
counterexample: no leading structural characters. -/
def plRoot : ParsedLine :=
  { groupId := "com.foo", artifactId := "bar", packaging := "jar", version := "1.2.3",
    scopeOpt := some "compile", optionalMark := false, omittedConflict := false,
    omittedDuplicate := false, conflictWith := none,
    lineChars := "com.foo:bar:jar:1.2.3:compile".data }

/-- C4 (counterexample): for the depth-0 line `plRoot` the resulting stack
is the one-element chain `["com.foo:bar"]`, yet nothing is recorded in the
per-key chain map, because the loop records only stacks longer than one
element; the claim as stated says a chain is recorded for every node. -/
theorem chain_record_counterexample :
    verboseChain initialVerboseState plRoot = ["com.foo:bar"] ∧
      (verboseStep initialVerboseState plRoot).dependencyChains "com.foo:bar" = [] := by
  constructor
  · rfl
  · rfl

/-- C4 (amended): for every node at computed depth `d`, the loop truncates
the ancestry stack to length `d` and appends the node's key; the resulting
stack becomes the new ancestry stack, and it is recorded as one chain for
the key in the per-key chain map exactly when it holds more than one
element (other keys' chain lists are untouched); the resulting stack ends
in the node's key and has length at most `d + 1`. -/
theorem chain_reconstructor_step (st : VerboseState) (pl : ParsedLine) :
    (verboseStep st pl).currentChain
        = st.currentChain.take (verboseChainLevel pl) ++ [verboseDepKey pl] ∧
    ((verboseStep st pl).dependencyChains (verboseDepKey pl)
        = if 1 < (verboseChain st pl).length then
            st.dependencyChains (verboseDepKey pl) ++ [verboseChain st pl]
          else st.dependencyChains (verboseDepKey pl)) ∧
    (∀ k, k ≠ verboseDepKey pl →
      (verboseStep st pl).dependencyChains k = st.dependencyChains k) ∧
    (∃ p, verboseChain st pl = p ++ [verboseDepKey pl]) ∧
    (verboseChain st pl).length ≤ verboseChainLevel pl + 1 := by
  refine ⟨rfl, ?_, ?_, ⟨st.currentChain.take (verboseChainLevel pl), rfl⟩, ?_⟩
  · unfold verboseStep
    by_cases h : 1 < (verboseChain st pl).length
    · rw [if_pos h, if_pos h]
      simp
    · rw [if_neg h, if_neg h]
  · intro k hk
    unfold verboseStep
    by_cases h : 1 < (verboseChain st pl).length
    · rw [if_pos h]
      simp [hk]
    · rw [if_neg h]
  · unfold verboseChain
    rw [List.length_append, List.length_take]
    simp

/-! ### The effective-POM and direct-dependency passes
(`_extract_dependency_info`, lines 299-336, and the plugin branch of
`_parse_effective_pom`, lines 266-294) -/

/-- Python truthiness of an optional string element text: `None` and the
empty string are falsy. -/
def truthy : Option String → Bool
  | none => false
  | some s => s != ""

/-- The function `_extract_dependency_info` after its XML-children walk: given the
collected `groupId`, `artifactId`, `version`, `scope` (default `compile`)
and `optional` values and the pass name (`managed` or `direct`), insert a
fresh record — but only when both identifiers are truthy and the key is
not already present; an existing record is left untouched. -/
def extractDependencyInfo (table : String → Option DepInfo)
    (g a version : Option String) (scope : String) (optionalFlag : Bool)
    (depType : String) : String → Option DepInfo :=
  if truthy g && truthy a then
    let depKey := g.getD "" ++ ":" ++ a.getD ""
    match table depKey with
    | some _ => table
    | none => fun k =>
        if k = depKey then
          some { groupId := g.getD "", artifactId := a.getD "", version := version,
                 packaging := "jar", scope := scope, optional := optionalFlag,
                 excluded := false, conflictVersion := none,
                 chain := [depKey], level := 0, depType := some depType }
        else table k
  else table

/-- The plugin branch of `_parse_effective_pom`: given the collected
`groupId`, `artifactId` and `version` of a `plugin` element, insert a
`maven-plugin` record with scope `plugin` and version defaulted to
`LATEST` (`version or 'LATEST'`) — again only when the key is absent. -/
def effectivePomPluginStep (table : String → Option DepInfo)
    (g a version : Option String) : String → Option DepInfo :=
  if truthy g && truthy a then
    let depKey := g.getD "" ++ ":" ++ a.getD ""
    match table depKey with
    | some _ => table
    | none => fun k =>
        if k = depKey then
          some { groupId := g.getD "", artifactId := a.getD "",
                 version := some (if truthy version then version.getD "" else "LATEST"),
                 packaging := "maven-plugin", scope := "plugin", optional := false,
                 excluded := false, conflictVersion := none,
                 chain := [depKey], level := 0, depType := none }
        else table k
  else table

/-- C10: when a key is already present in the dependency table, the
managed/direct extraction pass and the effective-POM plugin pass leave the
whole table unchanged (first pass wins), while a line of the verbose tree
pass re-encountering a key unconditionally stores its freshly built record
for that key (last write wins within that pass). -/
theorem merge_policy_first_vs_last (table : String → Option DepInfo)
    (gs as' : String) (version : Option String) (scope : String)
    (optionalFlag : Bool) (depType : String) (r : DepInfo)
    (hpresent : table (gs ++ ":" ++ as') = some r) :
    extractDependencyInfo table (some gs) (some as') version scope optionalFlag depType
        = table ∧
    effectivePomPluginStep table (some gs) (some as') version = table ∧
    (∀ (st : VerboseState) (pl : ParsedLine),
      (verboseStep st pl).dependencies (verboseDepKey pl) = some (verboseInfo st pl)) := by
  refine ⟨?_, ?_, ?_⟩
  · unfold extractDependencyInfo
    by_cases h : truthy (some gs) && truthy (some as')
    · rw [if_pos h]
      simp only [Option.getD]
      rw [hpresent]
    · rw [if_neg h]
  · unfold effectivePomPluginStep
    by_cases h : truthy (some gs) && truthy (some as')
    · rw [if_pos h]
      simp only [Option.getD]
      rw [hpresent]
    · rw [if_neg h]
  · intro st pl
    unfold verboseStep
    simp

/-- Witness for C10: the table already holding `com.foo:bar`. -/
theorem merge_policy_first_vs_last_witness :
    extractDependencyInfo wDeps (some "com.foo") (some "bar") (some "9.9") "test" true
        "managed" = wDeps ∧
    effectivePomPluginStep wDeps (some "com.foo") (some "bar") (some "9.9") = wDeps ∧
    (∀ (st : VerboseState) (pl : ParsedLine),
      (verboseStep st pl).dependencies (verboseDepKey pl) = some (verboseInfo st pl)) :=
  merge_policy_first_vs_last wDeps "com.foo" "bar" (some "9.9") "test" true "managed"
    wInfoPlain rfl

/-! ### Exit status of the tracer entry point (`main`,
`generate_enhanced_report` and `_generate_recommendations`) -/

/-- The function `_generate_recommendations` begins with `missing_analysis.get(...)`
for the four non-conflict buckets; when `analyze_missing_dependencies`
returned Python `None` this raises `AttributeError`, modelled by `none`. -/
def generateRecommendations (analysis : Option MissingAnalysis) :
    Option (List String × List String × List String × List String) :=
  match analysis with
  | none => none
  | some a => some (a.essential, a.optional, a.provided, a.plugin)

/-- The exit status `main` computes from the tracer state after copying:
`generate_enhanced_report` classifies the missing set and passes the
result to `_generate_recommendations`; an exception there (the `None`
case) is caught by the top-level handler, which returns 1; otherwise
`main` returns 0 exactly when the `essential` and `plugin` buckets are
both empty. -/
def tracerMainExit (deps : String → Option DepInfo) (st : TState) : Nat :=
  match generateRecommendations (analyzeMissingDependencies deps st.missingDependencies) with
  | none => 1
  | some _ =>
    match analyzeMissingDependencies deps st.missingDependencies with
    | none => 1
    | some a => if a.essential = [] ∧ a.plugin = [] then 0 else 1

/-- An optional artifact whose source directory is absent, for the exit
bug scenario. -/
def wInfoOpt : DepInfo :=
  { groupId := "org.opt", artifactId := "lib", version := some "1.0",
    packaging := "jar", scope := "compile", optional := true, excluded := false,
    conflictVersion := none, chain := ["org.opt:lib"], level := 1, depType := none }

/-- The dependency table of the exit bug scenario: one optional artifact
with a missing source directory, and one artifact with the `LATEST`
version sentinel. -/
def bugDeps : String → Option DepInfo :=
  fun k =>
    if k = "org.opt:lib" then some wInfoOpt
    else if k = "com.foo:latest" then some wInfoLatest
    else none

/-- The tracer state after the run of the exit bug scenario: the copy of
`org.opt:lib` fails with a missing source directory, then the copy of
`com.foo:latest` fails on the version sentinel. -/
def bugFinalState : TState :=
  (copyDependencyWithTracking bugDeps wNoChains wSrcEmpty
    (copyDependencyWithTracking bugDeps wNoChains wSrcEmpty initialTState wTgtEmpty
      "org.opt:lib").2.1
    wTgtEmpty "com.foo:latest").2.1

/-- C5 (code bug): the exit status contradicts the documented contract in
both directions.  First, whenever the missing set is empty — in
particular on full success, where every copy succeeded —
`analyze_missing_dependencies` returns `None`, `_generate_recommendations`
raises on it, and `main` exits 1 instead of 0.  Second, in the
`bugFinalState` run two copies failed, yet the missing set classifies as
optional-only, so `main` exits 0 despite failed copies. -/
theorem tracer_exit_code_bug :
    (∀ (deps : String → Option DepInfo) (st : TState),
        st.missingDependencies = [] → tracerMainExit deps st = 1) ∧
    (bugFinalState.failedCopies ≠ [] ∧ tracerMainExit bugDeps bugFinalState = 0) := by
  constructor
  · intro deps st hmiss
    simp [tracerMainExit, hmiss, analyzeMissingDependencies, generateRecommendations]
  · exact ⟨by decide, by decide⟩

/-- Witness for C5's universally quantified part at the empty state. -/
theorem tracer_exit_code_bug_witness :
    tracerMainExit wDeps initialTState = 1 :=
  tracer_exit_code_bug.1 wDeps initialTState rfl
